import Mathlib

/-!
Verification development for the Bayesian venue-ranking engine
(`bayes_ranker.py` and its host layer `api_server.py`).

The Python code is shallowly embedded: pandas DataFrames become a `Frame`
(column-presence flags at frame level, optional cells at row level),
machine floats become exact reals `ℝ` (constants are kept exact as
rationals where that helps `decide`), numpy's global random generator and
scipy's BFGS optimizer — external library calls — are passed in as
explicit parameters (a stream of Bernoulli draws, a list of drawn
coefficient vectors, an opaque minimization routine), and Python
exceptions become `Except` errors.
-/

noncomputable section

namespace BayesRanker

open scoped Matrix List

/-! ## Constants and configuration (bayes_ranker.py lines 50-78) -/

/-- MAX_DISTANCE_M = 3000. -/
def MAX_DISTANCE_M : ℝ := 3000

/-- MAX_RATING = 10.0. -/
def MAX_RATING : ℝ := 10

/-- LOG_REVIEW_SCALE = np.log(1000). -/
def LOG_REVIEW_SCALE : ℝ := Real.log 1000

/-- VIBE_CATEGORY_AFFINITY: fixed vibe → category → affinity table.
`none` models a key that is absent from the Python dict. -/
def VIBE_CATEGORY_AFFINITY (vibe : String) : Option (String → Option ℚ) :=
  if vibe = "insta" then some fun c =>
    if c = "cafe" then some (95/100) else if c = "restaurant" then some (8/10)
    else if c = "scenic" then some (9/10) else if c = "indoor" then some (7/10)
    else if c = "grocery" then some (3/10) else none
  else if vibe = "work" then some fun c =>
    if c = "cafe" then some (95/100) else if c = "restaurant" then some (5/10)
    else if c = "indoor" then some (7/10) else if c = "scenic" then some (3/10)
    else if c = "grocery" then some (2/10) else none
  else if vibe = "romantic" then some fun c =>
    if c = "restaurant" then some (95/100) else if c = "scenic" then some (85/100)
    else if c = "cafe" then some (7/10) else if c = "indoor" then some (6/10)
    else if c = "grocery" then some (1/10) else none
  else if vibe = "budget" then some fun c =>
    if c = "grocery" then some (9/10) else if c = "cafe" then some (7/10)
    else if c = "restaurant" then some (6/10) else if c = "indoor" then some (5/10)
    else if c = "scenic" then some (8/10) else none
  else if vibe = "lively" then some fun c =>
    if c = "restaurant" then some (85/100) else if c = "cafe" then some (6/10)
    else if c = "indoor" then some (8/10) else if c = "scenic" then some (5/10)
    else if c = "grocery" then some (2/10) else none
  else none

/-- PRIOR_CONFIG: the fixed prior table, feature-name key → (prior mean,
prior standard deviation). `none` models a key absent from the dict.
Note the keys are "distance" and "rating" — not "distance_norm" and
"rating_norm". -/
def PRIOR_CONFIG (name : String) : Option (ℚ × ℚ) :=
  if name = "intercept" then some (0, 2)
  else if name = "distance" then some (-(3/2), 1/2)
  else if name = "rating" then some (1, 1/2)
  else if name = "log_reviews" then some (1/2, 3/10)
  else if name = "vibe_match" then some (12/10, 1/2)
  else if name = "is_veg" then some (1/2, 1/2)
  else if name = "is_open" then some (3/10, 3/10)
  else if name = "completeness" then some (3/10, 3/10)
  else none

/-- PROXY_RATING_THRESHOLD = 4.2. -/
def PROXY_RATING_THRESHOLD : ℝ := 21/5

/-- PROXY_REVIEW_THRESHOLD = 100. -/
def PROXY_REVIEW_THRESHOLD : ℝ := 100

/-- The fixed feature order used by `fit_model`, `get_default_model` and the
prediction pipeline (bayes_ranker.py lines 408-409, 618-619). -/
def featureNames : List String :=
  ["intercept", "distance_norm", "rating_norm", "log_reviews",
   "vibe_match", "is_veg", "is_open", "completeness"]

/-- Modelled from the spec: the association between each feature of the fixed
feature order and the entry of the prior table that the spec says "the fixed
prior table assigns to that feature" (the same association that
`get_default_model` uses explicitly in the source). Used only to state
claims about the prior table; the fit code itself looks keys up by feature
name. -/
def specPriorKeyOfFeature : Fin 8 → String :=
  !["intercept", "distance", "rating", "log_reviews",
    "vibe_match", "is_veg", "is_open", "completeness"]

/-- PRIOR_CONFIG.get(name, (0.0, 1.0)) — dictionary lookup with default. -/
def priorConfigGet (name : String) : ℚ × ℚ := (PRIOR_CONFIG name).getD (0, 1)

/-- prior_means = [PRIOR_CONFIG.get(name, (0.0, 1.0))[0] for name in feature_names]
(bayes_ranker.py lines 301-302). -/
def laplacePriorMeans : List ℚ := featureNames.map fun n => (priorConfigGet n).1

/-- prior_stds = [PRIOR_CONFIG.get(name, (0.0, 1.0))[1] for name in feature_names]
(bayes_ranker.py lines 303-304). -/
def laplacePriorStds : List ℚ := featureNames.map fun n => (priorConfigGet n).2

/-! ## Data model: pandas DataFrame embedding -/

/-- One row of the venue DataFrame. Cells are `Option` exactly where the
source handles null values (fillna / .get with default / map over NaN);
cells the pipeline assumes non-null are plain values. -/
structure Row where
  id : String := ""
  fsq_id : String := ""
  distance_meters : ℝ := 0
  distanceMeters : ℝ := 0
  rating : Option ℝ := none
  review_count : Option ℝ := none
  ratingCount : Option ℝ := none
  category : Option String := none
  is_veg : Bool := false
  vegFriendly : Bool := false
  is_open : Option Bool := none
  openNow : Option Bool := none
  hasAddress : Option Bool := none
  hasPhone : Option Bool := none
  hasWebsite : Option Bool := none
  hasHours : Option Bool := none

/-- A venue DataFrame: which columns exist in the schema (pandas
`'col' in df.columns`), plus the rows. -/
structure Frame where
  hasId : Bool := false
  hasFsqId : Bool := false
  hasDistanceMeters : Bool := false
  hasDistanceMetersCamel : Bool := false
  hasRating : Bool := false
  hasReviewCount : Bool := false
  hasRatingCount : Bool := false
  hasCategory : Bool := false
  hasIsVeg : Bool := false
  hasVegFriendly : Bool := false
  hasIsOpen : Bool := false
  hasOpenNow : Bool := false
  hasHasAddress : Bool := false
  hasHasPhone : Bool := false
  hasHasWebsite : Bool := false
  hasHasHours : Bool := false
  rows : List Row := []

/-! ## Feature engineering: prepare_features (bayes_ranker.py lines 127-204) -/

/-- Feature 1: distance_norm = np.clip(distance / MAX_DISTANCE_M, 0, 1),
column fallback distance_meters → distanceMeters → default 0.5. -/
def distanceFeature (f : Frame) (r : Row) : ℝ :=
  if f.hasDistanceMeters then min (max (r.distance_meters / MAX_DISTANCE_M) 0) 1
  else if f.hasDistanceMetersCamel then min (max (r.distanceMeters / MAX_DISTANCE_M) 0) 1
  else 1/2

/-- Feature 2: rating_norm = rating.fillna(5.0) / MAX_RATING, default 0.5. -/
def ratingFeature (f : Frame) (r : Row) : ℝ :=
  if f.hasRating then r.rating.getD 5 / MAX_RATING else 1/2

/-- Feature 3: log_reviews = log1p(review_count.fillna(0)) / LOG_REVIEW_SCALE,
column fallback review_count → ratingCount → default 0.0. -/
def logReviewsFeature (f : Frame) (r : Row) : ℝ :=
  if f.hasReviewCount then Real.log (1 + r.review_count.getD 0) / LOG_REVIEW_SCALE
  else if f.hasRatingCount then Real.log (1 + r.ratingCount.getD 0) / LOG_REVIEW_SCALE
  else 0

/-- Feature 4: vibe_match = affinity table lookup, 0.5 for an unknown vibe,
an unknown category, or a missing category cell/column. -/
def vibeMatchFeature (f : Frame) (r : Row) (vibe : String) : ℝ :=
  if f.hasCategory then
    match r.category with
    | some c =>
        match VIBE_CATEGORY_AFFINITY vibe with
        | some aff => (((aff c).getD (1/2) : ℚ) : ℝ)
        | none => 1/2
    | none => 1/2
  else 1/2

/-- Feature 5 before user weighting: is_veg as float, column fallback
is_veg → vegFriendly → default 0.0. -/
def isVegRawFeature (f : Frame) (r : Row) : ℝ :=
  if f.hasIsVeg then (if r.is_veg then 1 else 0)
  else if f.hasVegFriendly then (if r.vegFriendly then 1 else 0)
  else 0

/-- Feature 5: the veg feature scaled by 0.3 when the user did not ask for
vegetarian venues. -/
def isVegFeature (f : Frame) (r : Row) (userWantsVeg : Bool) : ℝ :=
  if userWantsVeg then isVegRawFeature f r else isVegRawFeature f r * (3/10)

/-- Feature 6: is_open = flag.fillna(False) as float when an open-now column
exists (is_open, else openNow); 0.5 when neither column exists. -/
def isOpenFeature (f : Frame) (r : Row) : ℝ :=
  if f.hasIsOpen then (if r.is_open.getD false then 1 else 0)
  else if f.hasOpenNow then (if r.openNow.getD false then 1 else 0)
  else 1/2

/-- Feature 7: completeness = mean of the available subset of the four
profile flags (each fillna(False) as 0/1); 0.5 when none of the four
columns exists. -/
def completenessFeature (f : Frame) (r : Row) : ℝ :=
  let cells : List (Option Bool) :=
    (if f.hasHasAddress then [r.hasAddress] else []) ++
    (if f.hasHasPhone then [r.hasPhone] else []) ++
    (if f.hasHasWebsite then [r.hasWebsite] else []) ++
    (if f.hasHasHours then [r.hasHours] else [])
  if cells.isEmpty then 1/2
  else (cells.map fun b => if b.getD false then (1 : ℝ) else 0).sum / cells.length

/-- The feature vector of one row, in the fixed feature order
[intercept, distance_norm, rating_norm, log_reviews, vibe_match, is_veg,
is_open, completeness] (the order `X = features[feature_names].values`
imposes in fit_model / predict_with_uncertainty). -/
def featureVector (f : Frame) (r : Row) (vibe : String) (userWantsVeg : Bool) :
    Fin 8 → ℝ :=
  ![1, distanceFeature f r, ratingFeature f r, logReviewsFeature f r,
    vibeMatchFeature f r vibe, isVegFeature f r userWantsVeg,
    isOpenFeature f r, completenessFeature f r]

/-! ## Proxy labels: create_proxy_labels (bayes_ranker.py lines 207-236) -/

/-- create_proxy_labels. `draws` is the stream of Bernoulli(0.3) draws the
source takes from numpy's global generator (np.random.binomial) on the
no-rating fallback path. The source picks
`review_col = 'review_count' if present else 'ratingCount'` and then
indexes `df[review_col]`; when the rating column exists but neither review
column does, that indexing raises a KeyError, modelled as `.error`. -/
def createProxyLabels (draws : ℕ → Bool) (f : Frame) : Except String (List ℕ) :=
  if ¬f.hasRating then
    .ok ((List.range f.rows.length).map fun i => if draws i then 1 else 0)
  else if f.hasReviewCount then
    .ok (f.rows.map fun r =>
      if PROXY_RATING_THRESHOLD ≤ r.rating.getD 0 ∧
         PROXY_REVIEW_THRESHOLD ≤ r.review_count.getD 0 then 1 else 0)
  else if f.hasRatingCount then
    .ok (f.rows.map fun r =>
      if PROXY_RATING_THRESHOLD ≤ r.rating.getD 0 ∧
         PROXY_REVIEW_THRESHOLD ≤ r.ratingCount.getD 0 then 1 else 0)
  else .error "KeyError: ratingCount"

/-! ## Prediction: predict_with_uncertainty (bayes_ranker.py lines 434-520) -/

/-- The logistic sigmoid scipy.special.expit(x) = 1 / (1 + exp(-x)). -/
def sigmoid (x : ℝ) : ℝ := 1 / (1 + Real.exp (-x))

/-- The virtual index q/100 * (n-1) that np.percentile (default linear
interpolation) computes for quantile q over n samples. -/
def percentilePos (n : ℕ) (q : ℚ) : ℚ := q / 100 * ((n : ℚ) - 1)

/-- Linear interpolation of a (sorted) sample list at a virtual index:
with i = floor(pos) and g = pos - floor(pos), the value
(1-g)*s[i] + g*s[i+1], as np.percentile interpolates. -/
def interpolate (s : List ℝ) (pos : ℚ) : ℝ :=
  let i : ℕ := (Int.floor pos).toNat
  let g : ℝ := ((pos - Int.floor pos : ℚ) : ℝ)
  (1 - g) * s.getD i 0 + g * s.getD (i + 1) 0

/-- The ascending comparison np.percentile sorts with. -/
def ascLE : ℝ → ℝ → Bool := fun a b => decide (a ≤ b)

/-- np.percentile(xs, q) with the default linear interpolation: sort the
samples ascending and interpolate at q/100 * (n-1). -/
def percentile (xs : List ℝ) (q : ℚ) : ℝ :=
  interpolate (xs.mergeSort ascLE) (percentilePos xs.length q)

/-- Result for a single venue prediction (bayes_ranker.py lines 112-120). -/
structure PredictionResult where
  venue_id : String := ""
  probability : ℝ := 0
  p10 : ℝ := 0
  p90 : ℝ := 0
  confidence : ℝ := 0
  features : Fin 8 → ℝ := fun _ => 0

instance : Inhabited PredictionResult := ⟨{}⟩

/-- predict_with_uncertainty. `betaSamples` is the matrix of coefficient
vectors that the source draws via np.random.multivariate_normal (or the
np.random.normal fallback) from numpy's implicit global generator — an
external library call on global state, passed here as an explicit value
(size = n_samples). Everything after the draw is deterministic and is
translated from the source: per venue, eta samples = beta_samples @ x,
probability samples = expit(eta), mean / 10th / 90th percentile summaries,
confidence = 1 - (p90 - p10), and the venue id from the id column, else
the fsq_id column, else the row position as a decimal string. -/
def predictWithUncertainty (betaSamples : List (Fin 8 → ℝ)) (f : Frame)
    (vibe : String) (userWantsVeg : Bool) : List PredictionResult :=
  f.rows.enum.map fun p =>
    let x := featureVector f p.2 vibe userWantsVeg
    let pSamples := betaSamples.map fun β => sigmoid (∑ i, β i * x i)
    let p10 := percentile pSamples 10
    let p90 := percentile pSamples 90
    { venue_id := if f.hasId then p.2.id else if f.hasFsqId then p.2.fsq_id
        else toString p.1
      probability := pSamples.sum / pSamples.length
      p10 := p10
      p90 := p90
      confidence := 1 - (p90 - p10)
      features := x }

/-! ## Ranking: rank (bayes_ranker.py lines 537-558) -/

/-- rank: Python's sorted(key=key_func, reverse=True) is a stable descending
sort — element a is placed before b iff key a > key b, or the keys are
equal and a came first. That is mergeSort with the relation
"key of the later element ≤ key of the earlier". Unknown strategies raise
ValueError. -/
def rankLE {α : Type} (key : α → ℝ) : α → α → Bool :=
  fun a b => decide (key b ≤ key a)

/-- rank (bayes_ranker.py lines 537-558): dispatch on the strategy string,
sort descending by the strategy's key, raise ValueError on anything else. -/
def rank (predictions : List PredictionResult) (strategy : String) :
    Except String (List PredictionResult) :=
  if strategy = "mean" then
    .ok (predictions.mergeSort (rankLE fun p => p.probability))
  else if strategy = "lower_bound" then
    .ok (predictions.mergeSort (rankLE fun p => p.p10))
  else .error ("Unknown strategy: " ++ strategy)

/-! ## Model artifacts and the default prior-only model
(bayes_ranker.py lines 85-109, 611-651) -/

/-- Container for trained model artifacts. Coefficients keep the source's
dict shape (feature name → value, in insertion order). -/
structure ModelArtifacts where
  coefficients : List (String × ℝ)
  covariance : Matrix (Fin 8) (Fin 8) ℝ
  feature_names : List String
  n_samples : ℕ

/-- Mean of a prior-table entry, as a real: PRIOR_CONFIG[k][0]. -/
def priorMeanOf (k : String) : ℝ := ((priorConfigGet k).1 : ℚ)

/-- Standard deviation of a prior-table entry, as a real: PRIOR_CONFIG[k][1]. -/
def priorStdOf (k : String) : ℝ := ((priorConfigGet k).2 : ℚ)

/-- get_default_model: coefficients are the prior means (note the source
maps feature 'distance_norm' to table key 'distance' and 'rating_norm' to
'rating' here), covariance is np.diag of the squared prior standard
deviations, n_samples = 0. -/
def getDefaultModel : ModelArtifacts where
  coefficients :=
    [("intercept", priorMeanOf "intercept"),
     ("distance_norm", priorMeanOf "distance"),
     ("rating_norm", priorMeanOf "rating"),
     ("log_reviews", priorMeanOf "log_reviews"),
     ("vibe_match", priorMeanOf "vibe_match"),
     ("is_veg", priorMeanOf "is_veg"),
     ("is_open", priorMeanOf "is_open"),
     ("completeness", priorMeanOf "completeness")]
  covariance := Matrix.diagonal
    ![priorStdOf "intercept" ^ 2, priorStdOf "distance" ^ 2,
      priorStdOf "rating" ^ 2, priorStdOf "log_reviews" ^ 2,
      priorStdOf "vibe_match" ^ 2, priorStdOf "is_veg" ^ 2,
      priorStdOf "is_open" ^ 2, priorStdOf "completeness" ^ 2]
  feature_names := featureNames
  n_samples := 0

/-! ## Laplace fit: _fit_with_laplace (bayes_ranker.py lines 290-381) -/

/-- Prior means cast to the coefficient vector used by the fit, in feature
order. This is also the optimizer's starting point x0. -/
def priorMeansVec : Fin 8 → ℝ := fun i => ((laplacePriorMeans.getD i.1 0 : ℚ) : ℝ)

/-- Prior standard deviations in feature order, as reals. -/
def priorStdsVec : Fin 8 → ℝ := fun i => ((laplacePriorStds.getD i.1 1 : ℚ) : ℝ)

/-- prior_precisions = 1 / prior_stds ** 2. -/
def priorPrecisionsVec : Fin 8 → ℝ := fun i => 1 / priorStdsVec i ^ 2

/-- neg_log_posterior(beta): minus (Bernoulli-logistic log likelihood plus
Gaussian log prior); logaddexp(0, eta) = log(1 + exp eta). -/
def negLogPosterior (X : List (Fin 8 → ℝ)) (y : List ℕ) (β : Fin 8 → ℝ) : ℝ :=
  let ll := ((X.zip y).map fun p =>
    (p.2 : ℝ) * (∑ i, p.1 i * β i) - Real.log (1 + Real.exp (∑ i, p.1 i * β i))).sum
  let lp := -(1/2) * (∑ j, priorPrecisionsVec j * (β j - priorMeansVec j) ^ 2);
  -(ll + lp)

/-- gradient(beta) of the negative log posterior:
-(X^T (y - sigmoid(X beta)) - precisions * (beta - prior_means)). -/
def negLogPosteriorGrad (X : List (Fin 8 → ℝ)) (y : List ℕ) (β : Fin 8 → ℝ) :
    Fin 8 → ℝ := fun j =>
  -(((X.zip y).map fun p =>
      ((p.2 : ℝ) - sigmoid (∑ i, p.1 i * β i)) * p.1 j).sum
    + -(priorPrecisionsVec j * (β j - priorMeansVec j)))

/-- hessian(beta) of the negative log posterior:
X^T diag(p*(1-p)) X + diag(precisions). -/
def hessianAt (X : List (Fin 8 → ℝ)) (β : Fin 8 → ℝ) :
    Matrix (Fin 8) (Fin 8) ℝ :=
  (X.map fun x =>
    (sigmoid (∑ i, x i * β i) * (1 - sigmoid (∑ i, x i * β i))) •
      Matrix.vecMulVec x x).sum
  + Matrix.diagonal priorPrecisionsVec

/-- The symmetrized covariance (covariance + covariance.T) / 2 is Hermitian
(symmetric, over the reals). -/
lemma symmHalf_isHermitian (M : Matrix (Fin 8) (Fin 8) ℝ) :
    ((1/2 : ℝ) • (M + Mᵀ)).IsHermitian := by
  unfold Matrix.IsHermitian
  ext i j
  simp [Matrix.conjTranspose_apply, Matrix.transpose_apply]
  ring

/-- The mandatory numerical-stabilization steps applied to the raw inverse
Hessian (bayes_ranker.py lines 367-371): symmetrize by averaging with the
transpose, compute the minimum eigenvalue (np.linalg.eigvalsh of the
symmetric matrix), and if it is negative shift by (-min_eig + 0.01) * I. -/
def regularizeCovariance (M : Matrix (Fin 8) (Fin 8) ℝ) :
    Matrix (Fin 8) (Fin 8) ℝ :=
  let S := (1/2 : ℝ) • (M + Mᵀ)
  let minEig := Finset.univ.inf' Finset.univ_nonempty (symmHalf_isHermitian M).eigenvalues
  if minEig < 0 then S + (-minEig + 1/100) • 1 else S

open Classical in
/-- The covariance computation of the Laplace fit after the MAP point:
try np.linalg.inv(H) — a LinAlgError on a singular H is modelled by the
determinant test — with fallback np.linalg.inv(H + 0.01*I), followed by
the regularization steps. -/
def laplaceCovariance (H : Matrix (Fin 8) (Fin 8) ℝ) :
    Matrix (Fin 8) (Fin 8) ℝ :=
  regularizeCovariance
    (if IsUnit H.det then H⁻¹ else (H + (1/100 : ℝ) • 1)⁻¹)

/-- The type of the external scipy.optimize.minimize BFGS routine:
objective, analytic gradient and starting point in, best point found out.
It is opaque to this development; no claim depends on its output. -/
def Minimizer : Type :=
  ((Fin 8 → ℝ) → ℝ) → ((Fin 8 → ℝ) → (Fin 8 → ℝ)) → (Fin 8 → ℝ) → (Fin 8 → ℝ)

/-- A concrete stand-in minimizer used to instantiate closed statements;
no theorem's truth depends on which minimizer is supplied. -/
def someMinimizer : Minimizer := fun _ _ x0 => x0

/-- _fit_with_laplace: MAP estimate from the quasi-Newton routine started
at the prior means, covariance from the inverse Hessian at the MAP point
plus the regularization steps, coefficients as the name → value dict in
feature order, n_samples = len(y). -/
def fitWithLaplace (minz : Minimizer) (X : List (Fin 8 → ℝ)) (y : List ℕ) :
    ModelArtifacts :=
  let betaMap := minz (negLogPosterior X y) (negLogPosteriorGrad X y) priorMeansVec
  { coefficients :=
      (List.finRange 8).map fun i => (featureNames.getD i.1 "", betaMap i)
    covariance := laplaceCovariance (hessianAt X betaMap)
    feature_names := featureNames
    n_samples := y.length }

/-- fit_model (bayes_ranker.py lines 384-427), on the Laplace path
(use_pymc=False): prepare features, derive proxy labels (whose KeyError,
if any, propagates), fit. It performs no input validation of its own and
takes no labels argument. -/
def fitModel (draws : ℕ → Bool) (minz : Minimizer) (f : Frame)
    (vibe : String) (userWantsVeg : Bool) : Except String ModelArtifacts :=
  let X := f.rows.map fun r => featureVector f r vibe userWantsVeg
  match createProxyLabels draws f with
  | .error e => .error e
  | .ok y => .ok (fitWithLaplace minz X y)

/-! ## Host layer: the POST /fit endpoint (api_server.py lines 284-345) -/

/-- Input schema for a single venue (api_server.py VenueInput). -/
structure VenueInput where
  id : String := ""
  name : String := ""
  category : String := "restaurant"
  distance_meters : Option ℝ := none
  rating : Option ℝ := none
  review_count : Option ℝ := none
  open_now : Option Bool := none
  veg_friendly : Option Bool := none
  has_address : Option Bool := none
  has_phone : Option Bool := none
  has_website : Option Bool := none
  has_hours : Option Bool := none

open Classical in
/-- The row dict the endpoint builds for one venue. Python `x or d`
defaults are truthiness-based: None (and a zero number, and False) fall
back to the default. -/
def venueRow (p : VenueInput) : Row where
  id := p.id
  distance_meters :=
    match p.distance_meters with
    | some d => if d = 0 then 1000 else d
    | none => 1000
  rating := p.rating
  review_count := some (match p.review_count with
    | some c => if c = 0 then 0 else c
    | none => 0)
  category := some p.category
  vegFriendly := p.veg_friendly.getD false
  openNow := p.open_now
  hasAddress := some (p.has_address.getD false)
  hasPhone := some (p.has_phone.getD false)
  hasWebsite := some (p.has_website.getD false)
  hasHours := some (p.has_hours.getD false)

/-- The DataFrame the endpoint builds: these columns always exist, whatever
the per-venue nulls are. -/
def endpointFrame (places : List VenueInput) : Frame where
  hasId := true
  hasDistanceMeters := true
  hasRating := true
  hasReviewCount := true
  hasCategory := true
  hasVegFriendly := true
  hasOpenNow := true
  hasHasAddress := true
  hasHasPhone := true
  hasHasWebsite := true
  hasHasHours := true
  rows := places.map venueRow

/-- The caller-visible error taxonomy of the endpoint: HTTP 400 for input
validation (the spec's InputError) versus HTTP 500 for an exception
escaping fit_model. -/
inductive ApiError where
  | inputError : String → ApiError
  | serverError : String → ApiError
deriving DecidableEq

/-- The fit operation as exposed to callers (POST /fit): reject an empty
record set with an input error; when a label vector is provided, Python's
`if request.labels:` skips the length validation for an empty list, and a
non-empty list of the wrong length is an input error (the labels are
attached to the frame but the downstream fit never reads them); then run
fit_model, whose exceptions surface as server errors, not input errors. -/
def fitEndpoint (draws : ℕ → Bool) (minz : Minimizer)
    (places : List VenueInput) (labels : Option (List Int))
    (vibe : String) (vegOnly : Bool) : Except ApiError ModelArtifacts :=
  if places.isEmpty then .error (.inputError "No places provided")
  else
    let labelMismatch : Bool :=
      match labels with
      | some ls => !ls.isEmpty && ls.length != places.length
      | none => false
    if labelMismatch then .error (.inputError "Labels length mismatch")
    else
      match fitModel draws minz (endpointFrame places) vibe vegOnly with
      | .ok m => .ok m
      | .error e => .error (.serverError e)

/-! ## Claim C2 — priors used by the Laplace fit -/

/-- C2: the Laplace fit builds its prior vectors (and the optimizer's
starting point) by looking feature names up in PRIOR_CONFIG with default
(0.0, 1.0); the fixed feature order uses the names "distance_norm" and
"rating_norm", which are not keys of PRIOR_CONFIG (the table's keys are
"distance" and "rating"), so those two features receive the default prior
N(0, 1) — not N(-1.5, 0.5^2) and N(1.0, 0.5^2) as the spec states — and
the optimization is initialized at 0 for them. This theorem evaluates the
code at the mismatched features. -/
theorem laplace_prior_lookup_miss :
    featureNames.getD 1 "" = "distance_norm" ∧
    featureNames.getD 2 "" = "rating_norm" ∧
    PRIOR_CONFIG "distance_norm" = none ∧
    PRIOR_CONFIG "rating_norm" = none ∧
    PRIOR_CONFIG "distance" = some (-(3/2), 1/2) ∧
    PRIOR_CONFIG "rating" = some (1, 1/2) ∧
    laplacePriorMeans.getD 1 0 = 0 ∧ laplacePriorStds.getD 1 1 = 1 ∧
    laplacePriorMeans.getD 2 0 = 0 ∧ laplacePriorStds.getD 2 1 = 1 ∧
    priorMeansVec 1 = 0 ∧ priorMeansVec 1 ≠ -(3/2) ∧
    priorMeansVec 2 = 0 ∧ priorMeansVec 2 ≠ 1 := by
  have h1 : laplacePriorMeans[1]?.getD 0 = 0 := by decide
  have h2 : laplacePriorMeans[2]?.getD 0 = 0 := by decide
  refine ⟨rfl, rfl, rfl, rfl, rfl, rfl, by decide, by decide, by decide, by decide,
    ?_, ?_, ?_, ?_⟩ <;> simp [priorMeansVec, h1, h2]

/-! ## Claim C4 — the default prior-only model -/

/-- C4: the default model has n_samples = 0, a coefficient for each feature
of the fixed order equal to that feature's prior-table mean (under the
feature → table-key association the source uses), and a covariance exactly
equal to the diagonal matrix of the squared prior standard deviations in
the fixed feature order. -/
theorem default_model_is_prior_table :
    getDefaultModel.n_samples = 0 ∧
    getDefaultModel.feature_names = featureNames ∧
    (∀ i : Fin 8, getDefaultModel.coefficients.getD i.1 ("", 0) =
      (featureNames.getD i.1 "", priorMeanOf (specPriorKeyOfFeature i))) ∧
    getDefaultModel.covariance =
      Matrix.diagonal fun i => priorStdOf (specPriorKeyOfFeature i) ^ 2 := by
  refine ⟨rfl, rfl, ?_, ?_⟩
  · intro i
    fin_cases i <;> rfl
  · exact congrArg Matrix.diagonal (funext fun i => by fin_cases i <;> rfl)

/-! ## Claim C7 — proxy labeling -/

/-- Labels produced by an if-then-else over a predicate are binary. -/
lemma mem_map_ite01 {α : Type} (l : List α) (p : α → Prop) [DecidablePred p] :
    ∀ x ∈ l.map fun a => if p a then (1 : ℕ) else 0, x = 0 ∨ x = 1 := by
  intro x hx
  simp only [List.mem_map] at hx
  obtain ⟨a, -, rfl⟩ := hx
  split <;> simp

/-- A frame whose schema has a rating column but neither review-count
column. -/
def c7ErrFrame : Frame := { hasRating := true, rows := [{}] }

/-- C7 counterexample: the proxy-labeling operation is not total — on a
schema with a rating column but neither a review_count nor a ratingCount
column, `df[review_col]` raises a KeyError instead of returning labels. -/
theorem proxy_labels_keyerror :
    createProxyLabels (fun _ => false) c7ErrFrame = .error "KeyError: ratingCount" := rfl

/-- C7 as amended: proxy labeling succeeds iff the rating column is absent
(Bernoulli-draw fallback, one 0/1 label per record) or one of the two
review-count columns is present; on success it returns one binary label
per record, a record labeled 1 iff rating ≥ 4.2 and review count ≥ 100
with per-record missing values treated as 0; and it raises a KeyError
exactly when a rating column is present but both review-count columns are
absent from the schema. -/
theorem proxy_labels_amended (draws : ℕ → Bool) (f : Frame) :
    ((createProxyLabels draws f).isOk = true ↔
      (f.hasRating = false ∨ f.hasReviewCount = true ∨ f.hasRatingCount = true)) ∧
    (∀ ls, createProxyLabels draws f = .ok ls →
      ls.length = f.rows.length ∧ ∀ x ∈ ls, x = 0 ∨ x = 1) ∧
    (f.hasRating = false →
      createProxyLabels draws f =
        .ok ((List.range f.rows.length).map fun i => if draws i then 1 else 0)) ∧
    (f.hasRating = true → f.hasReviewCount = true →
      createProxyLabels draws f = .ok (f.rows.map fun r =>
        if PROXY_RATING_THRESHOLD ≤ r.rating.getD 0 ∧
           PROXY_REVIEW_THRESHOLD ≤ r.review_count.getD 0 then 1 else 0)) ∧
    (f.hasRating = true → f.hasReviewCount = false → f.hasRatingCount = false →
      createProxyLabels draws f = .error "KeyError: ratingCount") := by
  refine ⟨?_, ?_, ?_, ?_, ?_⟩
  · cases hr : f.hasRating <;> cases hrc : f.hasReviewCount <;>
      cases hra : f.hasRatingCount <;>
      simp [createProxyLabels, Except.isOk, Except.toBool, hr, hrc, hra]
  · intro ls hls
    cases hr : f.hasRating
    · have hsh : createProxyLabels draws f =
          .ok ((List.range f.rows.length).map fun i => if draws i then 1 else 0) := by
        simp [createProxyLabels, hr]
      rw [hsh] at hls
      cases hls
      exact ⟨by simp, mem_map_ite01 _ _⟩
    · cases hrc : f.hasReviewCount
      · cases hra : f.hasRatingCount
        · have hsh : createProxyLabels draws f = .error "KeyError: ratingCount" := by
            simp [createProxyLabels, hr, hrc, hra]
          rw [hsh] at hls
          exact absurd hls (by simp)
        · have hsh : createProxyLabels draws f = .ok (f.rows.map fun r =>
              if PROXY_RATING_THRESHOLD ≤ r.rating.getD 0 ∧
                 PROXY_REVIEW_THRESHOLD ≤ r.ratingCount.getD 0 then 1 else 0) := by
            simp [createProxyLabels, hr, hrc, hra]
          rw [hsh] at hls
          cases hls
          exact ⟨by simp, mem_map_ite01 _ _⟩
      · have hsh : createProxyLabels draws f = .ok (f.rows.map fun r =>
            if PROXY_RATING_THRESHOLD ≤ r.rating.getD 0 ∧
               PROXY_REVIEW_THRESHOLD ≤ r.review_count.getD 0 then 1 else 0) := by
          simp [createProxyLabels, hr, hrc]
        rw [hsh] at hls
        cases hls
        exact ⟨by simp, mem_map_ite01 _ _⟩
  · intro hr
    simp [createProxyLabels, hr]
  · intro hr hrc
    simp [createProxyLabels, hr, hrc]
  · intro hr hrc hra
    simp [createProxyLabels, hr, hrc, hra]

/-- A frame with rating and review_count columns and two concrete rows:
one passing both proxy thresholds, one missing its review count. -/
def c7OkFrame : Frame :=
  { hasRating := true, hasReviewCount := true,
    rows := [{ rating := some (9/2), review_count := some 150 },
             { rating := some 3 }] }

/-- C7 witness: the amended characterization applied at a concrete frame
whose schema has rating and review_count columns. -/
theorem proxy_labels_amended_witness :
    (createProxyLabels (fun _ => false) c7OkFrame).isOk = true ∧
    createProxyLabels (fun _ => false) c7OkFrame = .ok (c7OkFrame.rows.map fun r =>
      if PROXY_RATING_THRESHOLD ≤ r.rating.getD 0 ∧
         PROXY_REVIEW_THRESHOLD ≤ r.review_count.getD 0 then 1 else 0) := by
  have h := proxy_labels_amended (fun _ => false) c7OkFrame
  exact ⟨h.1.mpr (Or.inr (Or.inl rfl)), h.2.2.2.1 rfl rfl⟩

/-! ## Claim C8 — the open-now feature -/

/-- A frame whose schema has an is_open column, with one row whose is_open
cell is null. -/
def c8Frame : Frame := { hasIsOpen := true, rows := [{}] }

/-- C8 counterexample: when the open-now column exists but the record's
flag is null, fillna(False) makes the feature 0.0 ("closed"), not the
claimed 0.5 ("unknown"). -/
theorem open_flag_null_is_zero :
    featureVector c8Frame { } "insta" false 6 = 0 ∧
    featureVector c8Frame { } "insta" false 6 ≠ 1/2 := by
  have h : featureVector c8Frame { } "insta" false 6 = isOpenFeature c8Frame { } := rfl
  rw [h]
  constructor
  · simp [isOpenFeature, c8Frame]
  · simp [isOpenFeature, c8Frame]

/-- C8 as amended: the open-now feature (slot 6 of the feature vector) is
0.5 only when no open-now column (is_open or openNow) exists in the
schema; when a column exists, a present flag maps to 1.0 (open) or 0.0
(closed) and a null flag is filled with False, yielding 0.0. -/
theorem open_feature_amended (f : Frame) (r : Row) (vibe : String) (w : Bool) :
    featureVector f r vibe w 6 = isOpenFeature f r ∧
    (f.hasIsOpen = false → f.hasOpenNow = false → isOpenFeature f r = 1/2) ∧
    (f.hasIsOpen = true →
      (r.is_open = none → isOpenFeature f r = 0) ∧
      (r.is_open = some true → isOpenFeature f r = 1) ∧
      (r.is_open = some false → isOpenFeature f r = 0)) ∧
    (f.hasIsOpen = false → f.hasOpenNow = true →
      (r.openNow = none → isOpenFeature f r = 0) ∧
      (r.openNow = some true → isOpenFeature f r = 1) ∧
      (r.openNow = some false → isOpenFeature f r = 0)) := by
  refine ⟨rfl, ?_, ?_, ?_⟩
  · intro h1 h2
    simp [isOpenFeature, h1, h2]
  · intro h1
    exact ⟨fun h => by simp [isOpenFeature, h1, h],
           fun h => by simp [isOpenFeature, h1, h],
           fun h => by simp [isOpenFeature, h1, h]⟩
  · intro h1 h2
    exact ⟨fun h => by simp [isOpenFeature, h1, h2, h],
           fun h => by simp [isOpenFeature, h1, h2, h],
           fun h => by simp [isOpenFeature, h1, h2, h]⟩

/-- C8 witness: the amended theorem applied to a schema without open-now
columns (feature 0.5) — and, through the same application, to an open
record (feature 1.0). -/
theorem open_feature_amended_witness :
    isOpenFeature { } { } = 1/2 ∧
    isOpenFeature { hasIsOpen := true } { is_open := some true } = 1 := by
  exact ⟨(open_feature_amended { } { } "insta" false).2.1 rfl rfl,
         ((open_feature_amended { hasIsOpen := true } { is_open := some true }
            "insta" false).2.2.1 rfl).2.1 rfl⟩

/-! ## Claim C10 — venue identifiers in predictions -/

/-- Mapping a position-only function over an enumerated list is mapping it
over the positions. -/
lemma enum_map_fst_comp {α β : Type} (l : List α) (g : ℕ → β) (F : ℕ × α → β)
    (hF : ∀ p, F p = g p.1) : l.enum.map F = (List.range l.length).map g := by
  calc l.enum.map F = l.enum.map (g ∘ Prod.fst) :=
        List.map_congr_left fun p _ => hF p
    _ = (l.enum.map Prod.fst).map g := by rw [List.map_map]
    _ = (List.range l.length).map g := by rw [List.enum_map_fst]

/-- Mapping a value-only function over an enumerated list is mapping it
over the values. -/
lemma enum_map_snd_comp {α β : Type} (l : List α) (g : α → β) (F : ℕ × α → β)
    (hF : ∀ p, F p = g p.2) : l.enum.map F = l.map g := by
  calc l.enum.map F = l.enum.map (g ∘ Prod.snd) :=
        List.map_congr_left fun p _ => hF p
    _ = (l.enum.map Prod.snd).map g := by rw [List.map_map]
    _ = l.map g := by rw [List.enum_map_snd]

/-- C10: predict assigns each result the record's id value when an id
column exists, else the fsq_id value when that column exists, else the
decimal string of the record's zero-based position. -/
theorem predict_venue_ids (bs : List (Fin 8 → ℝ)) (f : Frame)
    (vibe : String) (veg : Bool) :
    (f.hasId = false → f.hasFsqId = false →
      (predictWithUncertainty bs f vibe veg).map (fun r => r.venue_id) =
        (List.range f.rows.length).map toString) ∧
    (f.hasId = true →
      (predictWithUncertainty bs f vibe veg).map (fun r => r.venue_id) =
        f.rows.map fun r => r.id) ∧
    (f.hasId = false → f.hasFsqId = true →
      (predictWithUncertainty bs f vibe veg).map (fun r => r.venue_id) =
        f.rows.map fun r => r.fsq_id) := by
  refine ⟨?_, ?_, ?_⟩
  · intro h1 h2
    simp only [predictWithUncertainty, List.map_map, h1, h2,
      Bool.false_eq_true, if_false]
    exact enum_map_fst_comp f.rows toString _ fun p => rfl
  · intro h1
    simp only [predictWithUncertainty, List.map_map, h1, if_true]
    exact enum_map_snd_comp f.rows (fun r => r.id) _ fun p => rfl
  · intro h1 h2
    simp only [predictWithUncertainty, List.map_map, h1, h2,
      Bool.false_eq_true, if_false, if_true]
    exact enum_map_snd_comp f.rows (fun r => r.fsq_id) _ fun p => rfl

/-- A one-row frame with no identifier columns. -/
def c10Frame : Frame := { rows := [{}] }

/-- C10 witness: with neither an id nor an fsq_id column, the single
prediction's venue id is "0", the decimal string of its position. -/
theorem predict_venue_ids_witness :
    (predictWithUncertainty [] c10Frame "insta" false).map (fun r => r.venue_id) =
      ["0"] := by
  have h := (predict_venue_ids [] c10Frame "insta" false).1 rfl rfl
  rw [h]
  rfl

/-! ## Claim C1 — input validation of the fit operation -/

/-- One well-formed venue input. -/
def c1Venue : VenueInput := { id := "1", name := "Great Cafe" }

/-- C1 counterexample: a provided label vector of the wrong length is NOT
rejected when it is empty — Python treats the empty list as falsy in
`if request.labels:` and skips the length check, so fit proceeds and
returns a model (no InputError despite labels length 0 ≠ 1 record). -/
theorem fit_empty_labels_not_rejected :
    (fitEndpoint (fun _ => false) someMinimizer [c1Venue] (some [])
      "insta" false).isOk = true := rfl

/-- The frame built by the fit endpoint always carries rating and
review_count columns, so fit_model on it always succeeds. -/
lemma fitModel_endpointFrame (draws : ℕ → Bool) (minz : Minimizer)
    (places : List VenueInput) (vibe : String) (veg : Bool) :
    fitModel draws minz (endpointFrame places) vibe veg =
      .ok (fitWithLaplace minz
        ((endpointFrame places).rows.map fun r =>
          featureVector (endpointFrame places) r vibe veg)
        ((endpointFrame places).rows.map fun r =>
          if PROXY_RATING_THRESHOLD ≤ r.rating.getD 0 ∧
             PROXY_REVIEW_THRESHOLD ≤ r.review_count.getD 0 then 1 else 0)) := rfl

/-- C1 as amended: the fit operation raises an input error when the record
set is empty and when a NON-EMPTY label vector of mismatched length is
provided; an empty provided label vector is skipped by Python truthiness;
in all remaining cases fit returns a model artifact; and every error the
operation raises from validation is an input error (fit_model itself
raises none). -/
theorem fit_endpoint_input_errors (draws : ℕ → Bool) (minz : Minimizer)
    (places : List VenueInput) (labels : Option (List Int))
    (vibe : String) (veg : Bool) :
    (places = [] →
      fitEndpoint draws minz places labels vibe veg =
        .error (.inputError "No places provided")) ∧
    (∀ ls, labels = some ls → ls ≠ [] → ls.length ≠ places.length →
      places ≠ [] →
      fitEndpoint draws minz places labels vibe veg =
        .error (.inputError "Labels length mismatch")) ∧
    (places ≠ [] → (∀ ls, labels = some ls → ls = [] ∨ ls.length = places.length) →
      (fitEndpoint draws minz places labels vibe veg).isOk = true) ∧
    (∀ e, fitEndpoint draws minz places labels vibe veg = .error e →
      ∃ msg, e = .inputError msg) := by
  refine ⟨?_, ?_, ?_, ?_⟩
  · rintro rfl
    rfl
  · rintro ls rfl hne hlen hpne
    cases places with
    | nil => exact absurd rfl hpne
    | cons p ps =>
      have hlen2 : ¬ls.length = ps.length + 1 := by simpa using hlen
      simp [fitEndpoint, hne, hlen2]
  · intro hpne hok
    cases places with
    | nil => exact absurd rfl hpne
    | cons p ps =>
      cases labels with
      | none =>
        simp [fitEndpoint, fitModel_endpointFrame, Except.isOk, Except.toBool]
      | some ls =>
        rcases hok ls rfl with h | h
        · simp [fitEndpoint, h, fitModel_endpointFrame, Except.isOk, Except.toBool]
        · have h2 : ls.length = ps.length + 1 := by simpa using h
          simp [fitEndpoint, h2, fitModel_endpointFrame, Except.isOk, Except.toBool]
  · intro e he
    cases places with
    | nil =>
      rw [show fitEndpoint draws minz [] labels vibe veg =
        .error (.inputError "No places provided") from rfl] at he
      cases he
      exact ⟨_, rfl⟩
    | cons p ps =>
      cases labels with
      | none =>
        rw [show fitEndpoint draws minz (p :: ps) none vibe veg =
          (match fitModel draws minz (endpointFrame (p :: ps)) vibe veg with
            | .ok m => .ok m
            | .error msg => .error (.serverError msg)) from rfl,
          fitModel_endpointFrame] at he
        exact absurd he (by simp)
      | some ls =>
        cases hb : (!ls.isEmpty && ls.length != (p :: ps).length) with
        | true =>
          simp only [fitEndpoint, List.isEmpty_cons, Bool.false_eq_true,
            if_false, hb, if_true] at he
          cases he
          exact ⟨_, rfl⟩
        | false =>
          simp only [fitEndpoint, List.isEmpty_cons, Bool.false_eq_true,
            if_false, hb, fitModel_endpointFrame] at he
          exact absurd he (by simp)

/-- C1 witness: the amended characterization applied at one well-formed
venue and no labels: fit succeeds with no input error. -/
theorem fit_endpoint_input_errors_witness :
    (fitEndpoint (fun _ => false) someMinimizer [c1Venue] none
      "insta" false).isOk = true := by
  exact (fit_endpoint_input_errors (fun _ => false) someMinimizer [c1Venue]
    none "insta" false).2.2.1 (by simp) (by simp)

/-! ## Sigmoid facts -/

/-- The sigmoid is strictly positive. -/
lemma sigmoid_pos (x : ℝ) : 0 < sigmoid x := by
  unfold sigmoid
  positivity

/-- The sigmoid is strictly below one. -/
lemma sigmoid_lt_one (x : ℝ) : sigmoid x < 1 := by
  unfold sigmoid
  rw [div_lt_one (by positivity)]
  linarith [Real.exp_pos (-x)]

/-- The sigmoid is strictly monotone. -/
lemma sigmoid_strictMono : StrictMono sigmoid := by
  intro a b hab
  unfold sigmoid
  have h1 : 1 + Real.exp (-b) < 1 + Real.exp (-a) := by
    linarith [Real.exp_lt_exp.mpr (neg_lt_neg hab)]
  exact one_div_lt_one_div_of_lt (by positivity) h1

/-! ## Claim C9 — randomness and seeding of predict -/

/-- The all-zero coefficient draw. -/
def betaZero : Fin 8 → ℝ := fun _ => 0

/-- A coefficient draw that weights only the intercept. -/
def betaIntercept : Fin 8 → ℝ := fun i => if i = 0 then 1 else 0

/-- A one-row frame for the prediction. -/
def c9Frame : Frame := { rows := [{}] }

/-- C9: the output of predict is a function of the coefficient sample
matrix that np.random draws from numpy's global generator — two calls
whose draws differ return different PredictionResults for the same model,
records and settings. The operation takes no seed parameter, so nothing
pins that draw between two calls. -/
theorem predict_depends_on_draw :
    predictWithUncertainty [betaZero] c9Frame "insta" false ≠
      predictWithUncertainty [betaIntercept] c9Frame "insta" false := by
  have hmono : sigmoid 0 < sigmoid 1 := sigmoid_strictMono one_pos
  intro h
  have hp := congrArg (fun l => (l.getD 0 default).probability) h
  have he : c9Frame.rows.enum = [(0, ({} : Row))] := rfl
  simp only [predictWithUncertainty, he, List.map_cons, List.map_nil,
    List.getD_cons_zero, List.sum_cons, List.sum_nil, List.length_cons,
    List.length_nil, betaZero, betaIntercept, zero_mul, ite_mul, one_mul,
    Finset.sum_const_zero, Finset.sum_ite_eq', Finset.mem_univ, if_true] at hp
  have hx0 : featureVector c9Frame {} "insta" false 0 = 1 := rfl
  rw [hx0] at hp
  norm_num at hp
  exact absurd hp (ne_of_lt hmono)

/-! ## Claim C6 — ranking is a stable descending sort -/

/-- The descending comparator is transitive. -/
lemma rankLE_trans {α : Type} (key : α → ℝ) :
    ∀ a b c : α, rankLE key a b → rankLE key b c → rankLE key a c := by
  intro a b c hab hbc
  simp only [rankLE, decide_eq_true_eq] at *
  exact le_trans hbc hab

/-- The descending comparator is total. -/
lemma rankLE_total {α : Type} (key : α → ℝ) :
    ∀ a b : α, rankLE key a b || rankLE key b a := by
  intro a b
  simp only [rankLE, Bool.or_eq_true, decide_eq_true_eq]
  exact le_total (key b) (key a)

/-- Sorting with the descending comparator yields a non-increasing list of
keys. -/
lemma mergeSort_desc_sorted {α : Type} (key : α → ℝ) (l : List α) :
    (l.mergeSort (rankLE key)).Pairwise fun a b => key b ≤ key a :=
  (List.sorted_mergeSort (rankLE_trans key) (rankLE_total key) l).imp
    fun h => by simpa [rankLE] using h

/-- Stability of the descending sort, phrased through filters: the
subsequence of elements whose key equals any fixed value is unchanged by
the sort. -/
lemma mergeSort_desc_filter_eq {α : Type} (key : α → ℝ) (l : List α) (k : ℝ) :
    ((l.mergeSort (rankLE key)).filter fun x => decide (key x = k)) =
      l.filter fun x => decide (key x = k) := by
  set c := l.filter fun x => decide (key x = k) with hc
  have hmemc : ∀ x ∈ c, key x = k := by
    intro x hx
    simpa using List.of_mem_filter hx
  have hpair : c.Pairwise fun a b => rankLE key a b := by
    apply List.pairwise_of_forall_mem_list
    intro a ha b hb
    simp [rankLE, hmemc a ha, hmemc b hb]
  have hsub : c <+ l.mergeSort (rankLE key) :=
    List.sublist_mergeSort (rankLE_trans key) (rankLE_total key) hpair
      (List.filter_sublist l)
  have hsub2 : c <+ ((l.mergeSort (rankLE key)).filter fun x => decide (key x = k)) := by
    have h := hsub.filter fun x => decide (key x = k)
    rwa [List.filter_eq_self.mpr fun x hx => by simpa using hmemc x hx] at h
  have hperm : ((l.mergeSort (rankLE key)).filter fun x => decide (key x = k)) ~ c :=
    (List.mergeSort_perm l (rankLE key)).filter _
  exact (hsub2.eq_of_length hperm.length_eq.symm).symm

/-- C6: rank with strategy "mean" returns a permutation of its input
sorted by non-increasing mean probability, and rank with "lower_bound" a
permutation sorted by non-increasing p10; no element is added or dropped,
and for every key value the elements carrying exactly that key keep their
relative input order (stability). -/
theorem rank_is_stable_desc_sort (preds : List PredictionResult) :
    (∃ lm, rank preds "mean" = .ok lm ∧ lm.Perm preds ∧
      lm.Pairwise (fun a b => b.probability ≤ a.probability) ∧
      ∀ k : ℝ, (lm.filter fun x => decide (x.probability = k)) =
        preds.filter fun x => decide (x.probability = k)) ∧
    (∃ ll, rank preds "lower_bound" = .ok ll ∧ ll.Perm preds ∧
      ll.Pairwise (fun a b => b.p10 ≤ a.p10) ∧
      ∀ k : ℝ, (ll.filter fun x => decide (x.p10 = k)) =
        preds.filter fun x => decide (x.p10 = k)) := by
  constructor
  · exact ⟨_, rfl, List.mergeSort_perm preds _,
      mergeSort_desc_sorted (fun p => p.probability) preds,
      fun k => mergeSort_desc_filter_eq (fun p => p.probability) preds k⟩
  · exact ⟨_, rfl, List.mergeSort_perm preds _,
      mergeSort_desc_sorted (fun p => p.p10) preds,
      fun k => mergeSort_desc_filter_eq (fun p => p.p10) preds k⟩

/-! ## Claim C5 — percentile interpolation facts -/

/-- The ascending comparator is transitive. -/
lemma ascLE_trans : ∀ a b c : ℝ, ascLE a b → ascLE b c → ascLE a c := by
  intro a b c hab hbc
  simp only [ascLE, decide_eq_true_eq] at *
  exact le_trans hab hbc

/-- The ascending comparator is total. -/
lemma ascLE_total : ∀ a b : ℝ, ascLE a b || ascLE b a := by
  intro a b
  simp only [ascLE, Bool.or_eq_true, decide_eq_true_eq]
  exact le_total a b

/-- np.percentile's sort produces an ascending list. -/
lemma mergeSort_asc_sorted (xs : List ℝ) :
    (xs.mergeSort ascLE).Sorted (· ≤ ·) :=
  (List.sorted_mergeSort ascLE_trans ascLE_total xs).imp
    fun h => by simpa [ascLE] using h

/-- Unfolding equation for the interpolation step. -/
lemma interpolate_def (s : List ℝ) (pos : ℚ) :
    interpolate s pos =
      (1 - ((pos - Int.floor pos : ℚ) : ℝ)) * s.getD (Int.floor pos).toNat 0 +
        ((pos - Int.floor pos : ℚ) : ℝ) * s.getD ((Int.floor pos).toNat + 1) 0 := rfl

/-- In a sorted list, the padded entries are monotone below the length. -/
lemma sorted_getD_mono {s : List ℝ} (hs : s.Sorted (· ≤ ·)) {i j : ℕ}
    (hij : i ≤ j) (hj : j < s.length) : s.getD i 0 ≤ s.getD j 0 := by
  have hi : i < s.length := Nat.lt_of_le_of_lt hij hj
  rw [List.getD_eq_getElem s 0 hi, List.getD_eq_getElem s 0 hj]
  exact hs.rel_get_of_le (Fin.mk_le_mk.mpr hij)

/-- The interpolated value lies in [0, 1] when all samples do (the
out-of-range padding value 0 is also in range). -/
lemma interpolate_bounds {s : List ℝ} (h : ∀ x ∈ s, 0 ≤ x ∧ x ≤ 1) (pos : ℚ) :
    0 ≤ interpolate s pos ∧ interpolate s pos ≤ 1 := by
  have hg0 : (0:ℝ) ≤ ((pos - Int.floor pos : ℚ) : ℝ) := by
    exact_mod_cast (Int.fract_nonneg pos : (0:ℚ) ≤ pos - Int.floor pos)
  have hg1 : ((pos - Int.floor pos : ℚ) : ℝ) ≤ 1 := by
    exact_mod_cast ((Int.fract_lt_one pos).le : (pos - Int.floor pos : ℚ) ≤ 1)
  have hbound : ∀ n : ℕ, 0 ≤ s.getD n 0 ∧ s.getD n 0 ≤ 1 := by
    intro n
    rcases lt_or_le n s.length with hn | hn
    · rw [List.getD_eq_getElem s 0 hn]
      exact h _ (List.get_mem s n hn)
    · rw [List.getD_eq_default s 0 hn]
      norm_num
  obtain ⟨ha0, ha1⟩ := hbound (Int.floor pos).toNat
  obtain ⟨hb0, hb1⟩ := hbound ((Int.floor pos).toNat + 1)
  rw [interpolate_def]
  constructor
  · nlinarith
  · nlinarith

/-- Interpolation at a monotone virtual index is monotone over a sorted
sample list: the core inequality behind p10 ≤ p90. -/
lemma interpolate_mono {s : List ℝ} (hs : s.Sorted (· ≤ ·)) {a b : ℚ}
    (ha : 0 ≤ a) (hab : a ≤ b) (hb : b ≤ (s.length : ℚ) - 1) :
    interpolate s a ≤ interpolate s b := by
  have hn1 : 1 ≤ s.length := by
    rcases Nat.eq_zero_or_pos s.length with h0 | h1
    · exfalso
      rw [h0] at hb
      push_cast at hb
      linarith
    · exact h1
  have hfa0 : 0 ≤ Int.floor a := Int.floor_nonneg.mpr ha
  have hfab : Int.floor a ≤ Int.floor b := Int.floor_le_floor hab
  have hfb0 : 0 ≤ Int.floor b := le_trans hfa0 hfab
  have hfbn : Int.floor b ≤ (s.length : ℤ) - 1 := by
    have h1 : Int.floor b ≤ Int.floor ((s.length : ℚ) - 1) := Int.floor_le_floor hb
    rwa [show ((s.length : ℚ) - 1) = ((s.length : ℚ) - ((1:ℤ) : ℚ)) from by push_cast; ring,
      Int.floor_sub_int, Int.floor_natCast] at h1
  have hian : (Int.floor a).toNat < s.length := by omega
  have hibn : (Int.floor b).toNat < s.length := by omega
  have hga0 : (0:ℝ) ≤ ((a - Int.floor a : ℚ) : ℝ) := by
    exact_mod_cast (Int.fract_nonneg a : (0:ℚ) ≤ a - Int.floor a)
  have hga1 : ((a - Int.floor a : ℚ) : ℝ) ≤ 1 := by
    exact_mod_cast ((Int.fract_lt_one a).le : (a - Int.floor a : ℚ) ≤ 1)
  have hgb0 : (0:ℝ) ≤ ((b - Int.floor b : ℚ) : ℝ) := by
    exact_mod_cast (Int.fract_nonneg b : (0:ℚ) ≤ b - Int.floor b)
  have hgb1 : ((b - Int.floor b : ℚ) : ℝ) ≤ 1 := by
    exact_mod_cast ((Int.fract_lt_one b).le : (b - Int.floor b : ℚ) ≤ 1)
  rcases eq_or_lt_of_le (show (Int.floor a).toNat ≤ (Int.floor b).toNat by omega)
    with heq | hlt
  · have hfeq : Int.floor a = Int.floor b := by omega
    by_cases hsucc : (Int.floor a).toNat + 1 < s.length
    · have hde : s.getD (Int.floor a).toNat 0 ≤ s.getD ((Int.floor a).toNat + 1) 0 :=
        sorted_getD_mono hs (Nat.le_succ _) hsucc
      have hgab : ((a - Int.floor a : ℚ) : ℝ) ≤ ((b - Int.floor a : ℚ) : ℝ) := by
        exact_mod_cast sub_le_sub_right hab ((Int.floor a : ℚ))
      rw [interpolate_def, interpolate_def, ← hfeq]
      nlinarith [mul_nonneg (sub_nonneg.mpr hgab) (sub_nonneg.mpr hde)]
    · have hae : a = b := by
        have h1 : ((Int.floor a : ℚ)) ≤ a := Int.floor_le a
        have h2 : ((Int.floor a : ℚ)) = (s.length : ℚ) - 1 := by
          have hz : Int.floor a = (s.length : ℤ) - 1 := by omega
          rw [hz]
          push_cast
          ring
        linarith
      rw [hae]
  · have hsucc : (Int.floor a).toNat + 1 < s.length := by omega
    have step1 : interpolate s a ≤ s.getD ((Int.floor a).toNat + 1) 0 := by
      rw [interpolate_def]
      have hde : s.getD (Int.floor a).toNat 0 ≤ s.getD ((Int.floor a).toNat + 1) 0 :=
        sorted_getD_mono hs (Nat.le_succ _) hsucc
      nlinarith [mul_nonneg (sub_nonneg.mpr hga1) (sub_nonneg.mpr hde)]
    have step2 : s.getD ((Int.floor a).toNat + 1) 0 ≤ s.getD (Int.floor b).toNat 0 :=
      sorted_getD_mono hs (by omega) hibn
    have step3 : s.getD (Int.floor b).toNat 0 ≤ interpolate s b := by
      by_cases hbsucc : (Int.floor b).toNat + 1 < s.length
      · rw [interpolate_def]
        have hde : s.getD (Int.floor b).toNat 0 ≤ s.getD ((Int.floor b).toNat + 1) 0 :=
          sorted_getD_mono hs (Nat.le_succ _) hbsucc
        nlinarith [mul_nonneg hgb0 (sub_nonneg.mpr hde)]
      · have hbq : b = ((Int.floor b : ℚ)) := by
          have h1 : ((Int.floor b : ℚ)) ≤ b := Int.floor_le b
          have h2 : ((Int.floor b : ℚ)) = (s.length : ℚ) - 1 := by
            have hz : Int.floor b = (s.length : ℤ) - 1 := by omega
            rw [hz]
            push_cast
            ring
          linarith
        rw [interpolate_def, show (b - Int.floor b : ℚ) = 0 from sub_eq_zero.mpr hbq]
        norm_num
    exact le_trans (le_trans step1 step2) step3

/-- Percentiles of samples in [0, 1] stay in [0, 1]. -/
lemma percentile_bounds (xs : List ℝ) (h : ∀ x ∈ xs, 0 ≤ x ∧ x ≤ 1) (q : ℚ) :
    0 ≤ percentile xs q ∧ percentile xs q ≤ 1 := by
  unfold percentile
  exact interpolate_bounds (fun x hx => h x (List.mem_mergeSort.mp hx)) _

/-- The empirical percentile is monotone in the quantile over a non-empty
sample list. -/
lemma percentile_mono (xs : List ℝ) (hne : xs ≠ []) {q q' : ℚ}
    (h0 : 0 ≤ q) (hqq : q ≤ q') (h100 : q' ≤ 100) :
    percentile xs q ≤ percentile xs q' := by
  have hn : 1 ≤ xs.length := List.length_pos.mpr hne
  have hnq : (1:ℚ) ≤ (xs.length : ℚ) := by exact_mod_cast hn
  unfold percentile percentilePos
  apply interpolate_mono (mergeSort_asc_sorted xs)
  · apply mul_nonneg (by positivity)
    linarith
  · apply mul_le_mul_of_nonneg_right _ (by linarith)
    gcongr
  · rw [List.length_mergeSort]
    have h1 : q' / 100 ≤ 1 := by linarith
    nlinarith

/-- C5: every PredictionResult predict returns (with at least one posterior
sample drawn, as the source always does) satisfies 0 ≤ p10 ≤ p90 ≤ 1,
confidence = 1 - (p90 - p10), and consequently 0 ≤ confidence ≤ 1. -/
theorem predict_interval_valid (bs : List (Fin 8 → ℝ)) (f : Frame)
    (vibe : String) (veg : Bool) (hbs : bs ≠ []) :
    ∀ r ∈ predictWithUncertainty bs f vibe veg,
      0 ≤ r.p10 ∧ r.p10 ≤ r.p90 ∧ r.p90 ≤ 1 ∧
      r.confidence = 1 - (r.p90 - r.p10) ∧
      0 ≤ r.confidence ∧ r.confidence ≤ 1 := by
  intro r hr
  simp only [predictWithUncertainty, List.mem_map] at hr
  obtain ⟨p, hp, rfl⟩ := hr
  have hpsne : (bs.map fun β =>
      sigmoid (∑ i, β i * featureVector f p.2 vibe veg i)) ≠ [] := by
    intro hcon
    exact hbs (List.map_eq_nil_iff.mp hcon)
  have hbounds : ∀ x ∈ (bs.map fun β =>
      sigmoid (∑ i, β i * featureVector f p.2 vibe veg i)), 0 ≤ x ∧ x ≤ 1 := by
    intro x hx
    obtain ⟨β, -, rfl⟩ := List.mem_map.mp hx
    exact ⟨(sigmoid_pos _).le, (sigmoid_lt_one _).le⟩
  have h10 := percentile_bounds _ hbounds 10
  have h90 := percentile_bounds _ hbounds 90
  have hmono := percentile_mono _ hpsne
    (by norm_num : (0:ℚ) ≤ 10) (by norm_num : (10:ℚ) ≤ 90)
    (by norm_num : (90:ℚ) ≤ 100)
  refine ⟨h10.1, hmono, h90.2, rfl, ?_, ?_⟩ <;> dsimp only <;>
    [linarith [hmono, h90.2]; linarith [h10.1, hmono]]

/-- A one-row frame for instantiating the prediction-interval theorem. -/
def c5Frame : Frame := { rows := [{}] }

/-- The prediction list on the concrete frame is non-empty. -/
lemma c5_predict_length :
    0 < (predictWithUncertainty [fun _ => (0:ℝ)] c5Frame "insta" false).length := by
  simp [predictWithUncertainty, c5Frame]

/-- C5 witness: the interval property instantiated at a concrete one-row
frame and a single zero coefficient draw. -/
theorem predict_interval_valid_witness :
    0 ≤ ((predictWithUncertainty [fun _ => (0:ℝ)] c5Frame "insta" false).get
        ⟨0, c5_predict_length⟩).p10 ∧
    ((predictWithUncertainty [fun _ => (0:ℝ)] c5Frame "insta" false).get
        ⟨0, c5_predict_length⟩).p10 ≤
      ((predictWithUncertainty [fun _ => (0:ℝ)] c5Frame "insta" false).get
        ⟨0, c5_predict_length⟩).p90 ∧
    ((predictWithUncertainty [fun _ => (0:ℝ)] c5Frame "insta" false).get
        ⟨0, c5_predict_length⟩).p90 ≤ 1 ∧
    ((predictWithUncertainty [fun _ => (0:ℝ)] c5Frame "insta" false).get
        ⟨0, c5_predict_length⟩).confidence =
      1 - (((predictWithUncertainty [fun _ => (0:ℝ)] c5Frame "insta" false).get
        ⟨0, c5_predict_length⟩).p90 -
        ((predictWithUncertainty [fun _ => (0:ℝ)] c5Frame "insta" false).get
        ⟨0, c5_predict_length⟩).p10) ∧
    0 ≤ ((predictWithUncertainty [fun _ => (0:ℝ)] c5Frame "insta" false).get
        ⟨0, c5_predict_length⟩).confidence ∧
    ((predictWithUncertainty [fun _ => (0:ℝ)] c5Frame "insta" false).get
        ⟨0, c5_predict_length⟩).confidence ≤ 1 := by
  exact predict_interval_valid [fun _ => (0:ℝ)] c5Frame "insta" false
    (by simp) _ (List.get_mem _ 0 c5_predict_length)

/-! ## Claim C3 — covariance symmetry and positive semi-definiteness -/

/-- Shifting a Hermitian real matrix by c on the diagonal is positive
semi-definite as soon as every eigenvalue plus c is non-negative
(spectral theorem). -/
lemma posSemidef_add_smul_one {A : Matrix (Fin 8) (Fin 8) ℝ}
    (hA : A.IsHermitian) {c : ℝ} (h : ∀ i, 0 ≤ hA.eigenvalues i + c) :
    (A + c • (1 : Matrix (Fin 8) (Fin 8) ℝ)).PosSemidef := by
  have hU : (hA.eigenvectorUnitary : Matrix (Fin 8) (Fin 8) ℝ) *
      star (hA.eigenvectorUnitary : Matrix (Fin 8) (Fin 8) ℝ) = 1 :=
    Matrix.mem_unitaryGroup_iff.mp (hA.eigenvectorUnitary).2
  have hD : Matrix.diagonal (fun i => hA.eigenvalues i + c) =
      Matrix.diagonal (RCLike.ofReal ∘ hA.eigenvalues) +
        c • (1 : Matrix (Fin 8) (Fin 8) ℝ) := by
    rw [RCLike.ofReal_real_eq_id, Function.id_comp]
    ext i j
    by_cases hij : i = j
    · subst hij
      simp [Matrix.diagonal_apply_eq, Matrix.one_apply_eq]
    · simp [Matrix.diagonal_apply_ne _ hij, Matrix.one_apply_ne hij]
  have key : A + c • (1 : Matrix (Fin 8) (Fin 8) ℝ) =
      (hA.eigenvectorUnitary : Matrix (Fin 8) (Fin 8) ℝ) *
        Matrix.diagonal (fun i => hA.eigenvalues i + c) *
        star (hA.eigenvectorUnitary : Matrix (Fin 8) (Fin 8) ℝ) := by
    rw [hD, Matrix.mul_add, Matrix.add_mul, Matrix.mul_smul, Matrix.mul_one,
      Matrix.smul_mul, hU, ← hA.spectral_theorem]
  rw [key, Matrix.star_eq_conjTranspose]
  exact (Matrix.PosSemidef.diagonal h).mul_mul_conjTranspose_same _

/-- The regularization steps always output a positive semi-definite
matrix, whatever matrix the Hessian inversion produced. -/
lemma regularizeCovariance_posSemidef (M : Matrix (Fin 8) (Fin 8) ℝ) :
    (regularizeCovariance M).PosSemidef := by
  unfold regularizeCovariance
  by_cases hmin : Finset.univ.inf' Finset.univ_nonempty
      (symmHalf_isHermitian M).eigenvalues < 0
  · rw [if_pos hmin]
    apply posSemidef_add_smul_one (symmHalf_isHermitian M)
    intro i
    have hle := Finset.inf'_le (symmHalf_isHermitian M).eigenvalues
      (Finset.mem_univ i)
    linarith
  · rw [if_neg hmin]
    push_neg at hmin
    apply (symmHalf_isHermitian M).posSemidef_of_eigenvalues_nonneg
    intro i
    exact le_trans hmin (Finset.inf'_le _ (Finset.mem_univ i))

/-- The covariance computed by the Laplace fit is positive semi-definite
for every possible Hessian. -/
lemma laplaceCovariance_posSemidef (H : Matrix (Fin 8) (Fin 8) ℝ) :
    (laplaceCovariance H).PosSemidef :=
  regularizeCovariance_posSemidef _

/-- A real positive semi-definite matrix is symmetric. -/
lemma posSemidef_transpose_eq {A : Matrix (Fin 8) (Fin 8) ℝ}
    (h : A.PosSemidef) : Aᵀ = A := by
  rw [← Matrix.conjTranspose_eq_transpose_of_trivial]
  exact h.1

/-- The Laplace-fit covariance is Hermitian, for any inputs. -/
lemma fitWithLaplace_covariance_isHermitian (minz : Minimizer)
    (X : List (Fin 8 → ℝ)) (y : List ℕ) :
    ((fitWithLaplace minz X y).covariance).IsHermitian :=
  (laplaceCovariance_posSemidef _).1

/-- The default model's covariance is positive semi-definite. -/
lemma getDefaultModel_covariance_posSemidef :
    getDefaultModel.covariance.PosSemidef := by
  apply Matrix.PosSemidef.diagonal
  intro i
  fin_cases i <;> exact sq_nonneg _

/-- C3: every covariance matrix a Laplace fit produces — for any training
matrix, labels, and whatever point the optimizer returns — and the default
model's covariance, are square of size feature_names.length = 8, exactly
symmetric, and positive semi-definite with all eigenvalues ≥ 0. -/
theorem covariance_symmetric_psd :
    (∀ (minz : Minimizer) (X : List (Fin 8 → ℝ)) (y : List ℕ),
      ((fitWithLaplace minz X y).covariance).PosSemidef ∧
      ((fitWithLaplace minz X y).covariance)ᵀ = (fitWithLaplace minz X y).covariance ∧
      (∀ i, 0 ≤ (fitWithLaplace_covariance_isHermitian minz X y).eigenvalues i) ∧
      (fitWithLaplace minz X y).feature_names.length = 8) ∧
    (getDefaultModel.covariance.PosSemidef ∧
      getDefaultModel.covarianceᵀ = getDefaultModel.covariance ∧
      (∀ i, 0 ≤ getDefaultModel_covariance_posSemidef.1.eigenvalues i) ∧
      getDefaultModel.feature_names.length = 8) := by
  constructor
  · intro minz X y
    have hpsd : ((fitWithLaplace minz X y).covariance).PosSemidef :=
      laplaceCovariance_posSemidef _
    exact ⟨hpsd, posSemidef_transpose_eq hpsd,
      fun i => hpsd.eigenvalues_nonneg i, rfl⟩
  · exact ⟨getDefaultModel_covariance_posSemidef,
      posSemidef_transpose_eq getDefaultModel_covariance_posSemidef,
      fun i => getDefaultModel_covariance_posSemidef.eigenvalues_nonneg i, rfl⟩

end BayesRanker
